import Mathlib

/-!
Shallow embedding of `src/apps/app-frontend/src/store/servers.ts`, the
Pinia server-data store of the app frontend.

Modelling conventions:
* Network calls (`usePyroFetch`, `useFetch`) are passed in as oracle
  arguments of type `Except Thrown _`: `.ok v` is a resolved promise with
  value `v`, `.error t` a rejected one with thrown value `t`.
* A JavaScript thrown value is either an `Error` instance or some other
  value (`Thrown.nonError`); the store normalizes the latter with
  `new Error ("An unknown error occurred")`.
* The store state is `ServerState`: the `serverData` record is an
  association list keyed by server id (JS `Record<string, Server>`), the
  `error` slot is `Option Error` (JS `Error | null`).
* Each store action becomes a pure function from the pre-state and its
  oracles to the post-state plus its outcome.  `console.error` /
  `console.warn` have no state effect; where a claim mentions the warning,
  the action additionally returns a `Bool` that is `true` iff the
  `console.warn` branch ran.
* The TypeScript `Server`, `ServerBackup` and `Project` types live in
  `@/types/servers`, outside this module; their fields here are the ones
  the store reads or writes (plus the power state listed in the data
  model).  Backup creation timestamps are modelled as `Nat`.
-/

set_option linter.unusedVariables false

namespace Servers

/-- A JavaScript `Error` value, reduced to its message. -/
structure Error where
  msg : String
deriving DecidableEq

/-- A JavaScript thrown value: an `Error` instance, or any other value. -/
inductive Thrown where
  | err (e : Error)
  | nonError
deriving DecidableEq

/-- `error instanceof Error ? error : new Error ("An unknown error occurred")`. -/
def normalizeError : Thrown → Error
  | .err e => e
  | .nonError => ⟨"An unknown error occurred"⟩

/-- Catalog metadata; the store reads `id` and `project_id` from it. -/
structure Project where
  id : String
  project_id : String
deriving DecidableEq

/-- A server backup; `created_at` is the creation timestamp. -/
structure ServerBackup where
  id : String
  name : String
  created_at : Nat
deriving DecidableEq

/-- A server record: the fields the store touches (`name`, `modpack`,
`modpack_id`, `project`, `backups`) plus the power state from the data
model. -/
structure Server where
  name : String
  state : String
  modpack : Option String
  modpack_id : Option String
  project : Option Project
  backups : List ServerBackup
deriving DecidableEq

/-- `Partial<Server>`: each field is present (`some`) or absent (`none`). -/
structure ServerPatch where
  name : Option String := none
  state : Option String := none
  modpack : Option (Option String) := none
  modpack_id : Option (Option String) := none
  project : Option (Option Project) := none
  backups : Option (List ServerBackup) := none
deriving DecidableEq

/-- The object spread { ...old, ...p }: fields present in `p` override,
all others keep their old value. -/
def mergeServer (old : Server) (p : ServerPatch) : Server where
  name := p.name.getD old.name
  state := p.state.getD old.state
  modpack := p.modpack.getD old.modpack
  modpack_id := p.modpack_id.getD old.modpack_id
  project := p.project.getD old.project
  backups := p.backups.getD old.backups

/-- Property read `m[serverId]` on the `serverData` record. -/
def getServer : List (String × Server) → String → Option Server
  | [], _ => none
  | (k, v) :: rest, serverId => if k = serverId then some v else getServer rest serverId

/-- Property write `m[serverId] = v` on the `serverData` record: replaces
the existing entry, or appends a new one. -/
def setServer : List (String × Server) → String → Server → List (String × Server)
  | [], serverId, v => [(serverId, v)]
  | (k, w) :: rest, serverId, v =>
    if k = serverId then (serverId, v) :: rest else (k, w) :: setServer rest serverId v

/-- The store state: the `serverData` cache and the `error` slot. -/
structure ServerState where
  serverData : List (String × Server)
  error : Option Error
deriving DecidableEq

/-- The initial state: empty cache, empty error slot. -/
def initialState : ServerState := { serverData := [], error := none }

/-- Getter `getServerData`: the cached record, or absent. -/
def getServerData (st : ServerState) (serverId : String) : Option Server :=
  getServer st.serverData serverId

/-- Getter `hasError`: `state.error !== null`. -/
def hasError (st : ServerState) : Bool := st.error.isSome

/-- Action `clearError`: resets the error slot. -/
def clearError (st : ServerState) : ServerState := { st with error := none }

/-- The comparator passed to `Array.prototype.sort`:
`(a, b) => (a.created_at > b.created_at ? -1 : 1)`.  Note it never
returns `0`: two backups with equal timestamps compare as `1` both ways. -/
def compareBackups (a b : ServerBackup) : Int :=
  if a.created_at > b.created_at then -1 else 1

/-- The stable merge rule of the engines behind `Array.prototype.sort`:
the right run's head is emitted before the left run's head only when the
comparator orders it strictly first (`compareBackups y x < 0`); on a tie
the left (earlier) element is kept. -/
def takesRight (y x : ServerBackup) : Bool := compareBackups y x < 0

/-- Merge step of `Array.prototype.sort`: take the right head only when
the comparator orders it strictly before the left head; otherwise keep
the left head, so equal-timestamp elements stay in input order. -/
def mergeJS : List ServerBackup → List ServerBackup → List ServerBackup
  | [], ys => ys
  | xs, [] => xs
  | x :: xs, y :: ys =>
    if takesRight y x then y :: mergeJS (x :: xs) ys
    else x :: mergeJS xs (y :: ys)
termination_by xs ys => xs.length + ys.length

/-- `Array.prototype.sort` with `compareBackups`, embedded as the stable
merge sort the mainstream engines implement: an element moves past
another only when the comparator orders it strictly first, so backups
with equal timestamps keep their input order even though the comparator
never returns `0`. -/
def sortBackupsJS (l : List ServerBackup) : List ServerBackup :=
  if h : l.length ≤ 1 then l
  else
    mergeJS (sortBackupsJS (l.take (l.length / 2))) (sortBackupsJS (l.drop (l.length / 2)))
termination_by l.length
decreasing_by
  · simp only [List.length_take]
    omega
  · simp only [List.length_drop]
    omega

/-- The weak descending order the sort establishes on timestamps. -/
def tsGE (a b : ServerBackup) : Prop := b.created_at ≤ a.created_at

/-- Action `fetchModpackVersion`: the catch logs and rethrows verbatim, so
the result is the fetch result itself. -/
def fetchModpackVersion (fetched : Except Thrown Project) : Except Thrown Project :=
  match fetched with
  | .ok result => .ok result
  | .error e => .error e

/-- Action `fetchProject`: the catch logs and rethrows verbatim.  The
value is attached to the record as `Project | null`. -/
def fetchProject (fetched : Except Thrown (Option Project)) : Except Thrown (Option Project) :=
  match fetched with
  | .ok result => .ok result
  | .error e => .error e

/-- Action `fetchServerBackups`: on success returns the fetched list run
through `Array.prototype.sort` with `compareBackups`; on failure logs and
rethrows verbatim.  It never writes the store state. -/
def fetchServerBackups (st : ServerState) (auth serverId : String)
    (fetched : Except Thrown (List ServerBackup)) :
    ServerState × Except Thrown (List ServerBackup) :=
  match fetched with
  | .ok result => (st, .ok (sortBackupsJS result))
  | .error e => (st, .error e)

/-- The try-block of `fetchServerData`: awaits the server record; when
`data.modpack` is set, awaits `fetchModpackVersion` and `fetchProject` and
assigns `data.modpack_id = pid.id`, `data.project = project`; then awaits
`fetchServerBackups` and assigns `data.backups`.  Any rejection escapes to
the catch. -/
def fetchServerDataAttempt (st : ServerState) (auth serverId : String)
    (serverFetch : Except Thrown Server)
    (modpackVersionFetch : Except Thrown Project)
    (projectFetch : Except Thrown (Option Project))
    (backupsFetch : Except Thrown (List ServerBackup)) :
    Except Thrown Server :=
  match serverFetch with
  | .error e => .error e
  | .ok data =>
    let withPack : Except Thrown Server :=
      match data.modpack with
      | none => .ok data
      | some _ =>
        match fetchModpackVersion modpackVersionFetch with
        | .error e => .error e
        | .ok pid =>
          match fetchProject projectFetch with
          | .error e => .error e
          | .ok project => .ok { data with modpack_id := some pid.id, project := project }
    match withPack with
    | .error e => .error e
    | .ok data2 =>
      match (fetchServerBackups st auth serverId backupsFetch).2 with
      | .error e => .error e
      | .ok backups => .ok { data2 with backups := backups }

/-- Action `fetchServerData`.  Oracles: `serverFetch` for the
`servers/id` call, `modpackVersionFetch` / `projectFetch` for the two
catalog calls (consulted only when `data.modpack` is set), and
`backupsFetch` for the backup-list call.  On success the cache entry is
assigned wholesale and the error slot cleared; on any failure the state is
kept except that the error slot receives the normalized error, which is
also thrown (`throw this.error`). -/
def fetchServerData (st : ServerState) (auth serverId : String)
    (serverFetch : Except Thrown Server)
    (modpackVersionFetch : Except Thrown Project)
    (projectFetch : Except Thrown (Option Project))
    (backupsFetch : Except Thrown (List ServerBackup)) :
    ServerState × Except Error Unit :=
  match fetchServerDataAttempt st auth serverId serverFetch modpackVersionFetch
      projectFetch backupsFetch with
  | .ok data =>
    ({ serverData := setServer st.serverData serverId data, error := none }, .ok ())
  | .error e =>
    ({ st with error := some (normalizeError e) }, .error (normalizeError e))

/-- Action `listServers`: returns the fetched collection; the catch logs
and then rethrows `this.error` — the store's error slot (possibly `null`),
not the error just caught.  The state is never written. -/
def listServers (st : ServerState) (auth : String)
    (fetched : Except Thrown (List Server)) :
    ServerState × Except (Option Error) (List Server) :=
  match fetched with
  | .ok servers => (st, .ok servers)
  | .error _ => (st, .error st.error)

/-- Action `updateServerData` (synchronous): if the server is not cached,
warns (`Bool` result `true`) and returns; otherwise assigns the shallow
merge of the patch into the existing entry. -/
def updateServerData (st : ServerState) (serverId : String) (data : ServerPatch) :
    ServerState × Bool :=
  match getServer st.serverData serverId with
  | none => (st, true)
  | some old =>
    ({ st with serverData := setServer st.serverData serverId (mergeServer old data) }, false)

/-- Action `sendPowerAction`: issues the POST; the catch logs and rethrows
verbatim; the state is never written. -/
def sendPowerAction (st : ServerState) (serverId action : String)
    (response : Except Thrown Unit) : ServerState × Except Thrown Unit :=
  match response with
  | .ok _ => (st, .ok ())
  | .error e => (st, .error e)

/-- Action `updateServerName`: issues the rename POST; only after it
resolves, merges the new name into the cache entry if present, else warns
(`Bool` result `true`).  A rejected POST is logged and rethrown verbatim,
leaving the state untouched. -/
def updateServerName (st : ServerState) (serverId newName : String)
    (response : Except Thrown Unit) : ServerState × Except Thrown Unit × Bool :=
  match response with
  | .error e => (st, .error e, false)
  | .ok _ =>
    match getServer st.serverData serverId with
    | some old =>
      ({ st with serverData := setServer st.serverData serverId { old with name := newName } },
        .ok (), false)
    | none => (st, .ok (), true)

/-- Action `createBackup`: POST only; catch logs and rethrows verbatim; no
state effect. -/
def createBackup (st : ServerState) (serverId backupName : String)
    (response : Except Thrown Unit) : ServerState × Except Thrown Unit :=
  match response with
  | .ok _ => (st, .ok ())
  | .error e => (st, .error e)

/-- Action `renameBackup`: POST only; catch logs and rethrows verbatim; no
state effect. -/
def renameBackup (st : ServerState) (serverId backupId newName : String)
    (response : Except Thrown Unit) : ServerState × Except Thrown Unit :=
  match response with
  | .ok _ => (st, .ok ())
  | .error e => (st, .error e)

/-- Action `deleteBackup`: DELETE only; catch logs and rethrows verbatim;
no state effect. -/
def deleteBackup (st : ServerState) (serverId backupId : String)
    (response : Except Thrown Unit) : ServerState × Except Thrown Unit :=
  match response with
  | .ok _ => (st, .ok ())
  | .error e => (st, .error e)

/-- Action `restoreBackup`: POST only; catch logs and rethrows verbatim;
no state effect. -/
def restoreBackup (st : ServerState) (serverId backupId : String)
    (response : Except Thrown Unit) : ServerState × Except Thrown Unit :=
  match response with
  | .ok _ => (st, .ok ())
  | .error e => (st, .error e)

/-- Action `downloadBackup`: GET returning the artifact (opaque here);
catch logs and rethrows verbatim; no state effect. -/
def downloadBackup (st : ServerState) (serverId backupId : String)
    (response : Except Thrown String) : ServerState × Except Thrown String :=
  match response with
  | .ok v => (st, .ok v)
  | .error e => (st, .error e)

/-- The record a fully successful `fetchServerData` caches: the fetched
record, with `modpack_id` / `project` attached when `modpack` is set, and
the sorted backup list attached. -/
def resolvedServer (data : Server) (pid : Project) (proj : Option Project)
    (bs : List ServerBackup) : Server :=
  { (match data.modpack with
     | none => data
     | some _ => { data with modpack_id := some pid.id, project := proj }) with
    backups := sortBackupsJS bs }

/-- Concrete server record used by the witnesses. -/
def dataTest : Server :=
  { name := "My Server", state := "running", modpack := some "mp77",
    modpack_id := none, project := none, backups := [] }

/-- Concrete cached record used by the witnesses. -/
def oldTest : Server :=
  { name := "Old Name", state := "stopped", modpack := none,
    modpack_id := none, project := none, backups := [⟨"b0", "zero", 1⟩] }

/-- Concrete catalog version used by the witnesses. -/
def pidTest : Project := ⟨"v12", "p34"⟩

/-- Concrete catalog project used by the witnesses. -/
def projTest : Option Project := some ⟨"p34", "p34"⟩

/-- Concrete backup list used by the witnesses. -/
def bsTest : List ServerBackup := [⟨"b1", "one", 5⟩, ⟨"b2", "two", 9⟩]

/-- Concrete store state used by the witnesses: two cached servers and a
stale error. -/
def stTest : ServerState :=
  { serverData := [("srv1", oldTest), ("srv2", dataTest)], error := some ⟨"stale"⟩ }

/-- Concrete patch used by the witnesses: only `name` is present. -/
def pTest : ServerPatch := { name := some "X" }

theorem getServer_setServer_self (m : List (String × Server)) (serverId : String) (v : Server) :
    getServer (setServer m serverId v) serverId = some v := by
  induction m with
  | nil => simp [setServer, getServer]
  | cons kv rest ih =>
    obtain ⟨k, w⟩ := kv
    by_cases h : k = serverId <;> simp [setServer, getServer, h, ih]

theorem getServer_setServer_ne (m : List (String × Server)) (serverId other : String)
    (v : Server) (h : other ≠ serverId) :
    getServer (setServer m serverId v) other = getServer m other := by
  induction m with
  | nil => simp [setServer, getServer, Ne.symm h]
  | cons kv rest ih =>
    obtain ⟨k, w⟩ := kv
    by_cases hk : k = serverId
    · subst hk
      simp [setServer, getServer, Ne.symm h]
    · simp only [setServer, if_neg hk, getServer]
      by_cases hko : k = other <;> simp [hko, ih]

theorem mergeJS_perm (xs ys : List ServerBackup) : List.Perm (mergeJS xs ys) (xs ++ ys) := by
  induction xs, ys using mergeJS.induct with
  | case1 ys => simp [mergeJS]
  | case2 xs h => cases xs <;> simp [mergeJS]
  | case3 x xs y ys hguard ih =>
    simp only [mergeJS, if_pos hguard]
    refine (ih.cons y).trans ?_
    exact (List.perm_middle).symm
  | case4 x xs y ys hguard ih =>
    simp only [mergeJS, if_neg hguard, List.cons_append]
    exact ih.cons x

theorem sortBackupsJS_perm (l : List ServerBackup) : List.Perm (sortBackupsJS l) l := by
  induction l using sortBackupsJS.induct with
  | case1 l h => simp [sortBackupsJS, h]
  | case2 l h ih1 ih2 =>
    rw [sortBackupsJS, dif_neg h]
    refine (mergeJS_perm _ _).trans ?_
    refine ((ih1.append ih2).trans ?_)
    simp

theorem mem_mergeJS {a : ServerBackup} {xs ys : List ServerBackup}
    (h : a ∈ mergeJS xs ys) : a ∈ xs ∨ a ∈ ys := by
  have := (mergeJS_perm xs ys).mem_iff.mp h
  simpa using this

theorem takesRight_lt {y x : ServerBackup} (h : takesRight y x = true) :
    x.created_at < y.created_at := by
  simp only [takesRight, compareBackups] at h
  by_cases hgt : x.created_at < y.created_at
  · exact hgt
  · simp [gt_iff_lt, hgt] at h

theorem takesRight_ge {y x : ServerBackup} (h : ¬ takesRight y x = true) :
    y.created_at ≤ x.created_at := by
  simp only [takesRight, compareBackups] at h
  by_cases hgt : x.created_at < y.created_at
  · simp [gt_iff_lt, hgt] at h
  · exact le_of_not_lt hgt

theorem sorted_mergeJS {xs ys : List ServerBackup}
    (hx : xs.Sorted tsGE) (hy : ys.Sorted tsGE) :
    (mergeJS xs ys).Sorted tsGE := by
  induction xs, ys using mergeJS.induct with
  | case1 ys => simpa [mergeJS] using hy
  | case2 xs h =>
    cases xs with
    | nil => simp [mergeJS]
    | cons a as => simpa [mergeJS] using hx
  | case3 x xs y ys hguard ih =>
    have hys := (List.sorted_cons.mp hy).2
    have hymem := (List.sorted_cons.mp hy).1
    simp only [mergeJS, if_pos hguard]
    refine List.sorted_cons.mpr ⟨?_, ih hx hys⟩
    intro b hb
    have hyx : tsGE y x := le_of_lt (takesRight_lt hguard)
    rcases mem_mergeJS hb with hbx | hby
    · rcases List.mem_cons.mp hbx with rfl | hbx'
      · exact hyx
      · exact le_trans ((List.sorted_cons.mp hx).1 b hbx') hyx
    · exact hymem b hby
  | case4 x xs y ys hguard ih =>
    have hxs := (List.sorted_cons.mp hx).2
    have hxmem := (List.sorted_cons.mp hx).1
    simp only [mergeJS, if_neg hguard]
    refine List.sorted_cons.mpr ⟨?_, ih hxs hy⟩
    intro b hb
    have hxy : tsGE x y := takesRight_ge hguard
    rcases mem_mergeJS hb with hbx | hby
    · exact hxmem b hbx
    · rcases List.mem_cons.mp hby with rfl | hby'
      · exact hxy
      · exact le_trans ((List.sorted_cons.mp hy).1 b hby') hxy

theorem sorted_sortBackupsJS (l : List ServerBackup) :
    (sortBackupsJS l).Sorted tsGE := by
  induction l using sortBackupsJS.induct with
  | case1 l h =>
    rw [sortBackupsJS, dif_pos h]
    match l, h with
    | [], _ => simp
    | [a], _ => simp
  | case2 l h ih1 ih2 =>
    rw [sortBackupsJS, dif_neg h]
    exact sorted_mergeJS ih1 ih2

theorem filter_mergeJS (t : Nat) (xs ys : List ServerBackup) :
    xs.Sorted tsGE →
    (mergeJS xs ys).filter (fun b => b.created_at == t) =
      xs.filter (fun b => b.created_at == t) ++ ys.filter (fun b => b.created_at == t) := by
  induction xs, ys using mergeJS.induct with
  | case1 ys =>
    intro _
    simp [mergeJS]
  | case2 xs h =>
    intro _
    cases xs <;> simp [mergeJS]
  | case3 x xs y ys hguard ih =>
    intro hx
    simp only [mergeJS, if_pos hguard]
    by_cases hyt : y.created_at = t
    · have hlt := takesRight_lt hguard
      have hnil : (x :: xs).filter (fun b => b.created_at == t) = [] := by
        rw [List.filter_eq_nil_iff]
        intro b hb
        have hble : b.created_at ≤ x.created_at := by
          rcases List.mem_cons.mp hb with rfl | hb'
          · exact le_refl _
          · exact (List.sorted_cons.mp hx).1 b hb'
        have hbt : b.created_at < t := hyt ▸ lt_of_le_of_lt hble hlt
        simp [Nat.ne_of_lt hbt]
      simp [List.filter_cons, ih hx, hnil, hyt]
    · simp [List.filter_cons, ih hx, hyt]
  | case4 x xs y ys hguard ih =>
    intro hx
    have hxs := (List.sorted_cons.mp hx).2
    simp only [mergeJS, if_neg hguard]
    by_cases hxt : x.created_at = t
    · simp [List.filter_cons, ih hxs, hxt]
    · simp [List.filter_cons, ih hxs, hxt]

theorem filter_sortBackupsJS (t : Nat) (l : List ServerBackup) :
    (sortBackupsJS l).filter (fun b => b.created_at == t) =
      l.filter (fun b => b.created_at == t) := by
  induction l using sortBackupsJS.induct with
  | case1 l h => rw [sortBackupsJS, dif_pos h]
  | case2 l h ih1 ih2 =>
    rw [sortBackupsJS, dif_neg h,
      filter_mergeJS t _ _ (sorted_sortBackupsJS _), ih1, ih2,
      ← List.filter_append, List.take_append_drop]

theorem fetchServerDataAttempt_ok (st : ServerState) (auth serverId : String)
    (data : Server) (mf : Except Thrown Project) (pf : Except Thrown (Option Project))
    (pid : Project) (proj : Option Project) (bs : List ServerBackup)
    (hm : data.modpack.isSome = true → mf = .ok pid ∧ pf = .ok proj) :
    fetchServerDataAttempt st auth serverId (.ok data) mf pf (.ok bs) =
      .ok (resolvedServer data pid proj bs) := by
  cases hmp : data.modpack with
  | none =>
    simp [fetchServerDataAttempt, fetchServerBackups, resolvedServer, hmp]
  | some m =>
    obtain ⟨h1, h2⟩ := hm (by simp [hmp])
    subst h1
    subst h2
    simp [fetchServerDataAttempt, fetchModpackVersion, fetchProject,
      fetchServerBackups, resolvedServer, hmp]

theorem fetchServerDataAttempt_error (st : ServerState) (auth serverId : String)
    (sf : Except Thrown Server) (mf : Except Thrown Project)
    (pf : Except Thrown (Option Project)) (bf : Except Thrown (List ServerBackup))
    (e : Thrown)
    (h : sf = .error e
      ∨ (∃ data, sf = .ok data ∧ data.modpack.isSome = true ∧ mf = .error e)
      ∨ (∃ data pid, sf = .ok data ∧ data.modpack.isSome = true ∧ mf = .ok pid ∧
          pf = .error e)
      ∨ (∃ data, sf = .ok data ∧
          (data.modpack = none ∨ ∃ pid proj, mf = .ok pid ∧ pf = .ok proj) ∧
          bf = .error e)) :
    fetchServerDataAttempt st auth serverId sf mf pf bf = .error e := by
  rcases h with rfl | ⟨data, rfl, hmp, rfl⟩ | ⟨data, pid, rfl, hmp, rfl, rfl⟩ |
      ⟨data, rfl, hmid, rfl⟩
  · rfl
  · obtain ⟨m, hm⟩ := Option.isSome_iff_exists.mp hmp
    simp [fetchServerDataAttempt, fetchModpackVersion, hm]
  · obtain ⟨m, hm⟩ := Option.isSome_iff_exists.mp hmp
    simp [fetchServerDataAttempt, fetchModpackVersion, fetchProject, hm]
  · rcases hmid with hnone | ⟨pid, proj, rfl, rfl⟩
    · simp [fetchServerDataAttempt, fetchServerBackups, hnone]
    · cases hmp : data.modpack with
      | none => simp [fetchServerDataAttempt, fetchServerBackups, hmp]
      | some m =>
        simp [fetchServerDataAttempt, fetchModpackVersion, fetchProject,
          fetchServerBackups, hmp]

/-- C1: every successful `fetchServerData` attaches `modpack_id` and the
resolved `project` when the record references a modpack, attaches the
fetched backup list, replaces the cache entry for `serverId` wholesale
with the resolved record (a value independent of any prior entry; all
other entries untouched), and clears the error slot. -/
theorem fetchServerData_success_contract
    (st : ServerState) (auth serverId : String) (data : Server)
    (mf : Except Thrown Project) (pf : Except Thrown (Option Project))
    (pid : Project) (proj : Option Project) (bs : List ServerBackup)
    (hm : data.modpack.isSome = true → mf = .ok pid ∧ pf = .ok proj) :
    fetchServerData st auth serverId (.ok data) mf pf (.ok bs) =
      ({ serverData := setServer st.serverData serverId (resolvedServer data pid proj bs),
         error := none }, .ok ()) ∧
    getServerData (fetchServerData st auth serverId (.ok data) mf pf (.ok bs)).1 serverId =
      some (resolvedServer data pid proj bs) ∧
    (∀ m, data.modpack = some m →
      (resolvedServer data pid proj bs).modpack_id = some pid.id ∧
      (resolvedServer data pid proj bs).project = proj) ∧
    (resolvedServer data pid proj bs).backups = sortBackupsJS bs ∧
    (∀ other, other ≠ serverId →
      getServerData (fetchServerData st auth serverId (.ok data) mf pf (.ok bs)).1 other =
        getServerData st other) ∧
    hasError (fetchServerData st auth serverId (.ok data) mf pf (.ok bs)).1 = false := by
  have hatt := fetchServerDataAttempt_ok st auth serverId data mf pf pid proj bs hm
  have heq : fetchServerData st auth serverId (.ok data) mf pf (.ok bs) =
      ({ serverData := setServer st.serverData serverId (resolvedServer data pid proj bs),
         error := none }, .ok ()) := by
    simp [fetchServerData, hatt]
  refine ⟨heq, ?_, ?_, ?_, ?_, ?_⟩
  · rw [heq]
    simp [getServerData, getServer_setServer_self]
  · intro m hm'
    simp [resolvedServer, hm']
  · rfl
  · intro other hne
    rw [heq]
    simp [getServerData, getServer_setServer_ne _ _ _ _ hne]
  · rw [heq]
    rfl

/-- C1 witness: a concrete successful fetch with a modpack reference and
an unsorted backup list, against a state that already caches `srv1`. -/
theorem fetchServerData_success_contract_witness :
    getServerData (fetchServerData stTest "tok" "srv1" (.ok dataTest) (.ok pidTest)
        (.ok projTest) (.ok bsTest)).1 "srv1" =
      some (resolvedServer dataTest pidTest projTest bsTest) ∧
    resolvedServer dataTest pidTest projTest bsTest =
      { name := "My Server", state := "running", modpack := some "mp77",
        modpack_id := some "v12", project := projTest,
        backups := [⟨"b2", "two", 9⟩, ⟨"b1", "one", 5⟩] } ∧
    hasError (fetchServerData stTest "tok" "srv1" (.ok dataTest) (.ok pidTest)
        (.ok projTest) (.ok bsTest)).1 = false ∧
    getServerData (fetchServerData stTest "tok" "srv1" (.ok dataTest) (.ok pidTest)
        (.ok projTest) (.ok bsTest)).1 "srv2" = getServerData stTest "srv2" := by
  have h := fetchServerData_success_contract stTest "tok" "srv1" dataTest
    (.ok pidTest) (.ok projTest) pidTest projTest bsTest (fun _ => ⟨rfl, rfl⟩)
  refine ⟨h.2.1, ?_, h.2.2.2.2.2, h.2.2.2.2.1 "srv2" (by decide)⟩
  simp [resolvedServer, dataTest, pidTest, projTest, bsTest, sortBackupsJS,
    mergeJS, takesRight, compareBackups]

/-- C2: when the server fetch, the modpack/version resolution, the project
resolution, or the backup fetch rejects, `fetchServerData` leaves the
cache exactly as before, stores the normalized failure in the error slot
(`hasError` becomes true), and re-raises it. -/
theorem fetchServerData_failure_contract
    (st : ServerState) (auth serverId : String)
    (sf : Except Thrown Server) (mf : Except Thrown Project)
    (pf : Except Thrown (Option Project)) (bf : Except Thrown (List ServerBackup))
    (e : Thrown)
    (h : sf = .error e
      ∨ (∃ data, sf = .ok data ∧ data.modpack.isSome = true ∧ mf = .error e)
      ∨ (∃ data pid, sf = .ok data ∧ data.modpack.isSome = true ∧ mf = .ok pid ∧
          pf = .error e)
      ∨ (∃ data, sf = .ok data ∧
          (data.modpack = none ∨ ∃ pid proj, mf = .ok pid ∧ pf = .ok proj) ∧
          bf = .error e)) :
    fetchServerData st auth serverId sf mf pf bf =
      ({ st with error := some (normalizeError e) }, .error (normalizeError e)) ∧
    (fetchServerData st auth serverId sf mf pf bf).1.serverData = st.serverData ∧
    getServerData (fetchServerData st auth serverId sf mf pf bf).1 serverId =
      getServerData st serverId ∧
    hasError (fetchServerData st auth serverId sf mf pf bf).1 = true := by
  have hatt := fetchServerDataAttempt_error st auth serverId sf mf pf bf e h
  have heq : fetchServerData st auth serverId sf mf pf bf =
      ({ st with error := some (normalizeError e) }, .error (normalizeError e)) := by
    simp [fetchServerData, hatt]
  refine ⟨heq, ?_, ?_, ?_⟩
  · rw [heq]
  · rw [heq]
    rfl
  · rw [heq]
    rfl

/-- C2 witness: a rejected server fetch against a state with a cached
entry and an empty error slot: the entry survives, `hasError` flips to
true, and the failure is re-raised. -/
theorem fetchServerData_failure_contract_witness :
    getServerData (fetchServerData { serverData := [("srv1", oldTest)], error := none }
        "tok" "srv1" (.error (.err ⟨"net down"⟩)) (.ok pidTest) (.ok projTest)
        (.ok [])).1 "srv1" = some oldTest ∧
    hasError (fetchServerData { serverData := [("srv1", oldTest)], error := none }
        "tok" "srv1" (.error (.err ⟨"net down"⟩)) (.ok pidTest) (.ok projTest)
        (.ok [])).1 = true ∧
    (fetchServerData { serverData := [("srv1", oldTest)], error := none }
        "tok" "srv1" (.error (.err ⟨"net down"⟩)) (.ok pidTest) (.ok projTest)
        (.ok [])).2 = .error ⟨"net down"⟩ := by
  have h := fetchServerData_failure_contract
    { serverData := [("srv1", oldTest)], error := none } "tok" "srv1"
    (.error (.err ⟨"net down"⟩)) (.ok pidTest) (.ok projTest) (.ok [])
    (.err ⟨"net down"⟩) (Or.inl rfl)
  refine ⟨?_, h.2.2.2, ?_⟩
  · rw [h.2.2.1]
    simp [getServerData, getServer]
  · rw [h.1]
    rfl

/-- C3: `fetchServerBackups` returns the fetched list sorted by creation
timestamp descending (a permutation of the input, weakly descending), and
ties are broken by stable input order: for every timestamp, the
subsequence of backups carrying it is exactly the input's subsequence, so
every equal-timestamp pair keeps its relative input order.  The store
state is untouched. -/
theorem fetchServerBackups_sorted_stable (st : ServerState) (auth serverId : String)
    (l : List ServerBackup) :
    (fetchServerBackups st auth serverId (.ok l)).1 = st ∧
    (fetchServerBackups st auth serverId (.ok l)).2 = .ok (sortBackupsJS l) ∧
    List.Perm (sortBackupsJS l) l ∧
    (sortBackupsJS l).Sorted tsGE ∧
    (∀ t, (sortBackupsJS l).filter (fun b => b.created_at == t) =
      l.filter (fun b => b.created_at == t)) :=
  ⟨rfl, rfl, sortBackupsJS_perm l, sorted_sortBackupsJS l, fun t => filter_sortBackupsJS t l⟩

/-- C4: `listServers` never modifies the store state, and on failure the
value it raises is the store's current error slot, not the error just
caught. -/
theorem listServers_contract (st : ServerState) (auth : String)
    (fetched : Except Thrown (List Server)) :
    listServers st auth fetched = (st, (listServers st auth fetched).2) ∧
    (∀ e, fetched = .error e → (listServers st auth fetched).2 = .error st.error) ∧
    (∀ servers, fetched = .ok servers → (listServers st auth fetched).2 = .ok servers) := by
  refine ⟨?_, ?_, ?_⟩
  · cases fetched <;> rfl
  · intro e he
    subst he
    rfl
  · intro servers hs
    subst hs
    rfl

/-- C4 witness: with a stale error `"stale"` in the slot, a fetch that
rejects with `"fresh"` leaves the state untouched and raises the stale
slot value, not the caught error. -/
theorem listServers_contract_witness :
    (listServers stTest "tok" (.error (.err ⟨"fresh"⟩))).1 = stTest ∧
    (listServers stTest "tok" (.error (.err ⟨"fresh"⟩))).2 = .error (some ⟨"stale"⟩) := by
  have h := listServers_contract stTest "tok" (.error (.err ⟨"fresh"⟩))
  refine ⟨by rw [h.1], ?_⟩
  rw [h.2.1 _ rfl]
  rfl

/-- C10: a failing rename request leaves the store state entirely
unchanged — the name merge runs only after the request resolves — and the
thrown value is re-raised verbatim to the caller. -/
theorem updateServerName_failure_contract (st : ServerState) (serverId newName : String)
    (e : Thrown) :
    updateServerName st serverId newName (.error e) = (st, .error e, false) := rfl

/-- C5 counterexample: a failing `sendPowerAction` from the initial state
leaves the error slot empty — the catch only logs and rethrows, so the
slot does not hold the most recent failure as the claim requires. -/
theorem error_slot_overwrite_cex :
    (sendPowerAction initialState "srv1" "start" (.error (.err ⟨"boom"⟩))).1.error = none ∧
    hasError (sendPowerAction initialState "srv1" "start" (.error (.err ⟨"boom"⟩))).1 = false ∧
    (sendPowerAction initialState "srv1" "start" (.error (.err ⟨"boom"⟩))).2 =
      .error (.err ⟨"boom"⟩) :=
  ⟨rfl, rfl, rfl⟩

/-- C5 amended: only `fetchServerData` writes the error slot — its failure
stores the normalized failure there and its success clears it; every other
operation leaves the slot unchanged whether it succeeds or fails, and
`clearError` empties it. -/
theorem error_slot_discipline
    (st : ServerState) (auth serverId action newName backupName backupId : String)
    (pw cb rb db rsb rn : Except Thrown Unit)
    (bl : Except Thrown (List ServerBackup)) (ls : Except Thrown (List Server))
    (dl : Except Thrown String) (p : ServerPatch)
    (sf : Except Thrown Server) (mf : Except Thrown Project)
    (pf : Except Thrown (Option Project)) (bf : Except Thrown (List ServerBackup)) :
    (sendPowerAction st serverId action pw).1.error = st.error ∧
    (fetchServerBackups st auth serverId bl).1.error = st.error ∧
    (listServers st auth ls).1.error = st.error ∧
    (updateServerData st serverId p).1.error = st.error ∧
    (updateServerName st serverId newName rn).1.error = st.error ∧
    (createBackup st serverId backupName cb).1.error = st.error ∧
    (renameBackup st serverId backupId newName rb).1.error = st.error ∧
    (deleteBackup st serverId backupId db).1.error = st.error ∧
    (restoreBackup st serverId backupId rsb).1.error = st.error ∧
    (downloadBackup st serverId backupId dl).1.error = st.error ∧
    (clearError st).error = none ∧
    (∀ err, (fetchServerData st auth serverId sf mf pf bf).2 = .error err →
      (fetchServerData st auth serverId sf mf pf bf).1.error = some err) ∧
    ((fetchServerData st auth serverId sf mf pf bf).2 = .ok () →
      (fetchServerData st auth serverId sf mf pf bf).1.error = none) := by
  refine ⟨by cases pw <;> rfl, by cases bl <;> rfl, by cases ls <;> rfl, ?_, ?_,
    by cases cb <;> rfl, by cases rb <;> rfl, by cases db <;> rfl,
    by cases rsb <;> rfl, by cases dl <;> rfl, rfl, ?_, ?_⟩
  · cases h : getServer st.serverData serverId <;> simp [updateServerData, h]
  · cases rn with
    | error e => rfl
    | ok u =>
      cases h : getServer st.serverData serverId <;> simp [updateServerName, h]
  · intro err heq
    cases hatt : fetchServerDataAttempt st auth serverId sf mf pf bf with
    | ok d => simp [fetchServerData, hatt] at heq
    | error t =>
      simp only [fetchServerData, hatt, Except.error.injEq] at heq
      simp [fetchServerData, hatt, heq]
  · intro heq
    cases hatt : fetchServerDataAttempt st auth serverId sf mf pf bf with
    | ok d => simp [fetchServerData, hatt]
    | error t => simp [fetchServerData, hatt] at heq

/-- C5 amended witness: a failing power action keeps the stale slot, a
failing `fetchServerData` overwrites it, and `clearError` empties it. -/
theorem error_slot_discipline_witness :
    (sendPowerAction stTest "srv1" "start" (.error (.err ⟨"boom"⟩))).1.error =
      some ⟨"stale"⟩ ∧
    (clearError stTest).error = none ∧
    (fetchServerData stTest "tok" "srv1" (.error (.err ⟨"down"⟩)) (.ok pidTest)
        (.ok projTest) (.ok [])).1.error = some ⟨"down"⟩ := by
  have h := error_slot_discipline stTest "tok" "srv1" "start" "new" "bk" "b1"
    (.error (.err ⟨"boom"⟩)) (.ok ()) (.ok ()) (.ok ()) (.ok ()) (.ok ())
    (.ok []) (.ok []) (.ok "artifact") pTest
    (.error (.err ⟨"down"⟩)) (.ok pidTest) (.ok projTest) (.ok [])
  refine ⟨?_, h.2.2.2.2.2.2.2.2.2.2.1, ?_⟩
  · rw [h.1]
    rfl
  · exact h.2.2.2.2.2.2.2.2.2.2.2.1 ⟨"down"⟩ rfl

/-- C6: `updateServerData` on a cached server assigns the shallow merge —
fields present in the patch take the patch's value, absent fields keep the
entry's value — leaves every other cache entry and the error slot
unchanged, and on an uncached server changes nothing, warns, and raises
nothing (it is total). -/
theorem updateServerData_contract (st : ServerState) (serverId : String) (p : ServerPatch) :
    (updateServerData st serverId p).1.error = st.error ∧
    (∀ old, getServerData st serverId = some old →
      getServerData (updateServerData st serverId p).1 serverId = some (mergeServer old p) ∧
      (p.name = none → (mergeServer old p).name = old.name) ∧
      (∀ v, p.name = some v → (mergeServer old p).name = v) ∧
      (p.state = none → (mergeServer old p).state = old.state) ∧
      (∀ v, p.state = some v → (mergeServer old p).state = v) ∧
      (p.modpack = none → (mergeServer old p).modpack = old.modpack) ∧
      (∀ v, p.modpack = some v → (mergeServer old p).modpack = v) ∧
      (p.modpack_id = none → (mergeServer old p).modpack_id = old.modpack_id) ∧
      (∀ v, p.modpack_id = some v → (mergeServer old p).modpack_id = v) ∧
      (p.project = none → (mergeServer old p).project = old.project) ∧
      (∀ v, p.project = some v → (mergeServer old p).project = v) ∧
      (p.backups = none → (mergeServer old p).backups = old.backups) ∧
      (∀ v, p.backups = some v → (mergeServer old p).backups = v)) ∧
    (∀ other, other ≠ serverId →
      getServerData (updateServerData st serverId p).1 other = getServerData st other) ∧
    (getServerData st serverId = none → updateServerData st serverId p = (st, true)) := by
  refine ⟨?_, ?_, ?_, ?_⟩
  · cases h : getServer st.serverData serverId <;> simp [updateServerData, h]
  · intro old hold
    have h : getServer st.serverData serverId = some old := hold
    refine ⟨by simp [updateServerData, h, getServerData, getServer_setServer_self],
      fun hn => by simp [mergeServer, hn], fun v hv => by simp [mergeServer, hv],
      fun hn => by simp [mergeServer, hn], fun v hv => by simp [mergeServer, hv],
      fun hn => by simp [mergeServer, hn], fun v hv => by simp [mergeServer, hv],
      fun hn => by simp [mergeServer, hn], fun v hv => by simp [mergeServer, hv],
      fun hn => by simp [mergeServer, hn], fun v hv => by simp [mergeServer, hv],
      fun hn => by simp [mergeServer, hn], fun v hv => by simp [mergeServer, hv]⟩
  · intro other hne
    cases h : getServer st.serverData serverId with
    | none => simp [updateServerData, h]
    | some old =>
      simp [updateServerData, h, getServerData]
      rw [getServer_setServer_ne _ _ _ _ hne]
  · intro hnone
    have h : getServer st.serverData serverId = none := hnone
    simp [updateServerData, h]

/-- C6 witness: patching only `name` on cached `srv1` rewrites just that
entry's name; `srv2` is untouched; patching uncached `srv1` in the empty
store is a warning no-op. -/
theorem updateServerData_contract_witness :
    getServerData (updateServerData stTest "srv1" pTest).1 "srv1" =
      some { name := "X", state := "stopped", modpack := none, modpack_id := none,
             project := none, backups := [⟨"b0", "zero", 1⟩] } ∧
    getServerData (updateServerData stTest "srv1" pTest).1 "srv2" =
      getServerData stTest "srv2" ∧
    updateServerData initialState "srv1" pTest = (initialState, true) := by
  have h := updateServerData_contract stTest "srv1" pTest
  have h0 := updateServerData_contract initialState "srv1" pTest
  have hold : getServerData stTest "srv1" = some oldTest := by decide
  refine ⟨?_, h.2.2.1 "srv2" (by decide), h0.2.2.2 rfl⟩
  rw [(h.2.1 oldTest hold).1]
  decide

/-- C7: a successful rename merges only the new name into the cache entry
when the server is cached — all other fields and entries unchanged — and
when it is not cached the cache stays unchanged, nothing is raised, and
the warning branch runs. -/
theorem updateServerName_success_contract (st : ServerState) (serverId newName : String) :
    (∀ old, getServerData st serverId = some old →
      updateServerName st serverId newName (.ok ()) =
        ({ st with serverData := setServer st.serverData serverId { old with name := newName } },
          .ok (), false) ∧
      getServerData (updateServerName st serverId newName (.ok ())).1 serverId =
        some { old with name := newName } ∧
      ({ old with name := newName } : Server).name = newName ∧
      ({ old with name := newName } : Server).state = old.state ∧
      ({ old with name := newName } : Server).modpack = old.modpack ∧
      ({ old with name := newName } : Server).modpack_id = old.modpack_id ∧
      ({ old with name := newName } : Server).project = old.project ∧
      ({ old with name := newName } : Server).backups = old.backups ∧
      (∀ other, other ≠ serverId →
        getServerData (updateServerName st serverId newName (.ok ())).1 other =
          getServerData st other)) ∧
    (getServerData st serverId = none →
      updateServerName st serverId newName (.ok ()) = (st, .ok (), true)) := by
  constructor
  · intro old hold
    have h : getServer st.serverData serverId = some old := hold
    have heq : updateServerName st serverId newName (.ok ()) =
        ({ st with serverData := setServer st.serverData serverId { old with name := newName } },
          .ok (), false) := by
      simp [updateServerName, h]
    refine ⟨heq, ?_, rfl, rfl, rfl, rfl, rfl, rfl, ?_⟩
    · rw [heq]
      simp [getServerData, getServer_setServer_self]
    · intro other hne
      rw [heq]
      simp [getServerData]
      rw [getServer_setServer_ne _ _ _ _ hne]
  · intro hnone
    have h : getServer st.serverData serverId = none := hnone
    simp [updateServerName, h]

/-- C7 witness: renaming cached `srv1` rewrites only its name and leaves
`srv2` alone; renaming `srv1` in the empty store is a warning no-op with
no exception. -/
theorem updateServerName_success_contract_witness :
    getServerData (updateServerName stTest "srv1" "new" (.ok ())).1 "srv1" =
      some { name := "new", state := "stopped", modpack := none, modpack_id := none,
             project := none, backups := [⟨"b0", "zero", 1⟩] } ∧
    getServerData (updateServerName stTest "srv1" "new" (.ok ())).1 "srv2" =
      getServerData stTest "srv2" ∧
    updateServerName initialState "srv1" "new" (.ok ()) = (initialState, .ok (), true) := by
  have h := updateServerName_success_contract stTest "srv1" "new"
  have h0 := updateServerName_success_contract initialState "srv1" "new"
  have hold : getServerData stTest "srv1" = some oldTest := by decide
  refine ⟨?_, (h.1 oldTest hold).2.2.2.2.2.2.2.2 "srv2" (by decide), h0.2 rfl⟩
  rw [(h.1 oldTest hold).2.1]
  decide

/-- C8: the backup lifecycle operations and `sendPowerAction` leave the
store state — in particular the cache mapping — unchanged, whether the
request resolves or rejects. -/
theorem backup_power_ops_cache_frame (st : ServerState)
    (serverId backupName backupId newName action : String)
    (r1 r2 r3 r4 r6 : Except Thrown Unit) (r5 : Except Thrown String) :
    (createBackup st serverId backupName r1).1 = st ∧
    (renameBackup st serverId backupId newName r2).1 = st ∧
    (deleteBackup st serverId backupId r3).1 = st ∧
    (restoreBackup st serverId backupId r4).1 = st ∧
    (downloadBackup st serverId backupId r5).1 = st ∧
    (sendPowerAction st serverId action r6).1 = st :=
  ⟨by cases r1 <;> rfl, by cases r2 <;> rfl, by cases r3 <;> rfl,
    by cases r4 <;> rfl, by cases r5 <;> rfl, by cases r6 <;> rfl⟩

/-- C9: in the initial state every lookup is absent, and absence of a
server id is preserved by every cache-touching operation except a
successful `fetchServerData` for that very id: fetches for other ids,
failing fetches for the same id, `updateServerData`, and
`updateServerName` never create the entry. -/
theorem getServerData_absent_contract
    (st : ServerState) (s auth serverId newName : String)
    (sf : Except Thrown Server) (mf : Except Thrown Project)
    (pf : Except Thrown (Option Project)) (bf : Except Thrown (List ServerBackup))
    (p : ServerPatch) (rn : Except Thrown Unit) :
    getServerData initialState s = none ∧
    (getServerData st s = none → s ≠ serverId →
      getServerData (fetchServerData st auth serverId sf mf pf bf).1 s = none) ∧
    (getServerData st s = none → ∀ err,
      (fetchServerData st auth serverId sf mf pf bf).2 = .error err →
      getServerData (fetchServerData st auth serverId sf mf pf bf).1 s = none) ∧
    (getServerData st s = none →
      getServerData (updateServerData st serverId p).1 s = none) ∧
    (getServerData st s = none →
      getServerData (updateServerName st serverId newName rn).1 s = none) := by
  refine ⟨rfl, ?_, ?_, ?_, ?_⟩
  · intro habs hne
    cases hatt : fetchServerDataAttempt st auth serverId sf mf pf bf with
    | ok d =>
      simp only [fetchServerData, hatt, getServerData] at habs ⊢
      rw [getServer_setServer_ne _ _ _ _ hne]
      exact habs
    | error t => simpa [fetchServerData, hatt, getServerData] using habs
  · intro habs err heq
    cases hatt : fetchServerDataAttempt st auth serverId sf mf pf bf with
    | ok d => simp [fetchServerData, hatt] at heq
    | error t => simpa [fetchServerData, hatt, getServerData] using habs
  · intro habs
    cases h : getServer st.serverData serverId with
    | none => simpa [updateServerData, h, getServerData] using habs
    | some old =>
      by_cases hne : s = serverId
      · subst hne
        simp [getServerData, h] at habs
      · simp only [updateServerData, h, getServerData]
        rw [getServer_setServer_ne _ _ _ _ hne]
        exact habs
  · intro habs
    cases rn with
    | error e => simpa [updateServerName, getServerData] using habs
    | ok u =>
      cases h : getServer st.serverData serverId with
      | none => simpa [updateServerName, h, getServerData] using habs
      | some old =>
        by_cases hne : s = serverId
        · subst hne
          simp [getServerData, h] at habs
        · simp only [updateServerName, h, getServerData]
          rw [getServer_setServer_ne _ _ _ _ hne]
          exact habs

/-- C9 witness: `"ghost"` is absent initially and stays absent across a
successful fetch of `srv1`, a patch of `srv1`, and a rename of `srv1`. -/
theorem getServerData_absent_contract_witness :
    getServerData initialState "ghost" = none ∧
    getServerData (fetchServerData stTest "tok" "srv1" (.ok dataTest) (.ok pidTest)
        (.ok projTest) (.ok bsTest)).1 "ghost" = none ∧
    getServerData (updateServerData stTest "srv1" pTest).1 "ghost" = none ∧
    getServerData (updateServerName stTest "srv1" "new" (.ok ())).1 "ghost" = none := by
  have h := getServerData_absent_contract stTest "ghost" "tok" "srv1" "new"
    (.ok dataTest) (.ok pidTest) (.ok projTest) (.ok bsTest) pTest (.ok ())
  have habs : getServerData stTest "ghost" = none := by decide
  exact ⟨h.1, h.2.1 habs (by decide), h.2.2.2.1 habs, h.2.2.2.2 habs⟩

end Servers
